import Mathlib

/-
Verification development for the toolpath generation engine of src/slice.py.

The geometry of the source operates on Python floats.  We embed the
arithmetic over an arbitrary linear ordered field K (so every definition is
executable at K = ℚ, which matches exact float behaviour on the inputs used
for concrete evaluation) and state the claims about the program at K = ℝ,
the idealisation of the idealised floating point arithmetic of the source.  The only
irrational constant in the source, math.sqrt(2), appears as an explicit
`sqrt2` argument of the generic definitions and is instantiated with
Real.sqrt 2 in the ℝ-level wrappers.

Python lists are mutable; functions where the final state of the argument matters to
a caller are embedded in state-passing style: the `..._eff` variants return
the caller-visible post-state of the argument list together with the result.
-/

namespace FabricAtor

abbrev Point (K : Type) := K × K

abbrev Segment (K : Type) := List (Point K)

/-- A toolpath command (x, y, state): state 0 is move-to, state 1 is draw-to. -/
abbrev Cmd (K : Type) := K × K × K

variable {K : Type} [LinearOrderedField K]

instance : Inhabited (Point K) := ⟨(0, 0)⟩

/-- slice.py line 26: `points_equal(p1, p2)` inside combine_segments_to_polygon:
tolerance comparison of both coordinates. -/
def points_equal (tol : K) (p1 p2 : Point K) : Prop :=
  |p1.1 - p2.1| < tol ∧ |p1.2 - p2.2| < tol

instance (tol : K) (p1 p2 : Point K) : Decidable (points_equal tol p1 p2) :=
  inferInstanceAs (Decidable (|p1.1 - p2.1| < tol ∧ |p1.2 - p2.2| < tol))

/-- slice.py lines 41-52: the four connection tests of one candidate segment,
tried in the order of the source; the resulting spliced polygon on success.
`current_point` is `polygon[-1]`, the head tests use `polygon[0]`. -/
def connectTest (tol : K) (polygon : List (Point K)) (seg : Segment K) :
    Option (List (Point K)) :=
  if points_equal tol polygon.getLast! seg.head! then
    some (polygon ++ seg.tail)
  else if points_equal tol polygon.getLast! seg.getLast! then
    some (polygon ++ seg.dropLast.reverse)
  else if points_equal tol polygon.head! seg.head! then
    some (seg.reverse ++ polygon.tail)
  else if points_equal tol polygon.head! seg.getLast! then
    some (seg.dropLast ++ polygon)
  else
    none

/-- slice.py lines 40-56: one scan pass over the remaining segments: the first
segment with a successful connection test is spliced and removed. -/
def scanSegs (tol : K) (polygon : List (Point K)) :
    List (Segment K) → Option (List (Point K) × List (Segment K))
  | [] => none
  | seg :: rest =>
    match connectTest tol polygon seg with
    | some poly => some (poly, rest)
    | none =>
      match scanSegs tol polygon rest with
      | some pr => some (pr.1, seg :: pr.2)
      | none => none

/-- slice.py lines 37-60: the while loop: repeat scan passes until no segment
connects or the remaining set is exhausted. -/
def stitchLoop (tol : K) (polygon : List (Point K)) (segs : List (Segment K)) :
    List (Point K) :=
  match h : scanSegs tol polygon segs with
  | some pr => stitchLoop tol pr.1 pr.2
  | none => polygon
termination_by segs.length
decreasing_by
  induction segs generalizing pr with
  | nil => simp [scanSegs] at h
  | cons s rest ih =>
    rw [scanSegs] at h
    cases hc : connectTest tol polygon s with
    | some poly =>
      rw [hc] at h
      cases h
      simp
    | none =>
      rw [hc] at h
      cases hs : scanSegs tol polygon rest with
      | some pr2 =>
        rw [hs] at h
        cases h
        have := ih pr2 hs
        simp
        omega
      | none => rw [hs] at h; cases h

/-- slice.py lines 14-62: combine_segments_to_polygon (tol defaults to 1e-6 at
call sites). -/
def combine_segments_to_polygon (segments : List (Segment K)) (tol : K) :
    List (Point K) :=
  match segments with
  | [] => []
  | first :: rest => stitchLoop tol first rest

/-- Python min() over a list of field elements; min() raises on an empty
sequence, every use below is on a nonempty list (0 is a junk total-default). -/
def listMin : List K → K
  | [] => 0
  | x :: xs => xs.foldl min x

/-- Python max() over a list of field elements (see listMin). -/
def listMax : List K → K
  | [] => 0
  | x :: xs => xs.foldl max x

/-- slice.py lines 145-156: scale_polygon. -/
def scale_polygon (polygon : List (Point K)) (scale_factor : K) :
    List (Point K) :=
  polygon.map fun p => (p.1 * scale_factor, p.2 * scale_factor)

/-- slice.py lines 158-191: center_polygon: translate so the bounding-box
center lands on the bed center. -/
def center_polygon (polygon : List (Point K)) (bed_width bed_height : K) :
    List (Point K) :=
  let min_x := listMin (polygon.map fun p => p.1)
  let max_x := listMax (polygon.map fun p => p.1)
  let min_y := listMin (polygon.map fun p => p.2)
  let max_y := listMax (polygon.map fun p => p.2)
  let poly_center_x := (min_x + max_x) / 2
  let poly_center_y := (min_y + max_y) / 2
  let bed_center_x := bed_width / 2
  let bed_center_y := bed_height / 2
  let offset_x := bed_center_x - poly_center_x
  let offset_y := bed_center_y - poly_center_y
  polygon.map fun p => (p.1 + offset_x, p.2 + offset_y)

/-- slice.py lines 205-207 and 261-263: the closing step shared by
generate_perimeter_path and generate_cross_hatching_path: the comparison
`polygon[0] != polygon[-1]` is EXACT equality of the point tuples (no
tolerance), and on inequality the first point is appended. -/
def closePoly (polygon : List (Point K)) : List (Point K) :=
  if polygon.head! ≠ polygon.getLast! then polygon ++ [polygon.head!]
  else polygon

/-- slice.py lines 193-215: generate_perimeter_path, in state-passing form:
the closing step at lines 205-207 mutates the list of the caller in place
(`polygon.append(...)`), so the first component is the caller-visible
post-state of the argument; the second is the returned command list. -/
def generate_perimeter_path_eff (polygon : List (Point K)) :
    List (Point K) × List (Cmd K) :=
  let polygon := closePoly polygon
  (polygon,
    (polygon.head!.1, polygon.head!.2, 0) :: polygon.tail.map fun p => (p.1, p.2, 1))

/-- The return value of generate_perimeter_path. -/
def generate_perimeter_path (polygon : List (Point K)) : List (Cmd K) :=
  (generate_perimeter_path_eff polygon).2

/-- slice.py lines 217-237: get_line_polygon_intersections for the line
A*x + B*y + C = 0; edges wrap via (i+1) % n; near-parallel edges
(|denom| < eps) are skipped; epsilon defaults to 1e-6 at call sites. -/
def get_line_polygon_intersections (polygon : List (Point K)) (A B C eps : K) :
    List (Point K) :=
  let n := polygon.length
  (List.range n).filterMap fun i =>
    let p1 := polygon.getD i (0, 0)
    let p2 := polygon.getD ((i + 1) % n) (0, 0)
    let dx := p2.1 - p1.1
    let dy := p2.2 - p1.2
    let denom := A * dx + B * dy
    if |denom| < eps then none
    else
      let t := -(A * p1.1 + B * p1.2 + C) / denom
      if 0 ≤ t ∧ t ≤ 1 then some (p1.1 + t * dx, p1.2 + t * dy)
      else none

/-- slice.py lines 284-288 (and 302-306): pair the sorted intersections
sequentially, `for i in range(0, len - 1, 2)`: pair (0,1), (2,3), ...;
a trailing unpaired intersection is dropped; each pair yields one move
command and one draw command. -/
def pairUp : List (Point K) → List (Cmd K)
  | p :: q :: rest => (p.1, p.2, 0) :: (q.1, q.2, 1) :: pairUp rest
  | _ => []

/-- slice.py lines 276-277/289 (and 296-297/307): the c-value loop
`c = c_min; while c <= c_max: ...; c += step`.  The source loops forever
when step <= 0 (spacing defaults to 10); this embedding returns [] in that
unreachable case so that the recursion terminates. -/
def hatchCs [FloorRing K] (cmax step c : K) : List K :=
  if h : 0 < step ∧ c ≤ cmax then c :: hatchCs cmax step (c + step)
  else []
termination_by (⌊(cmax - c) / step⌋ + 1).toNat
decreasing_by
  obtain ⟨hstep, hle⟩ := h
  have h0 : (0 : K) ≤ (cmax - c) / step :=
    div_nonneg (by linarith) (le_of_lt hstep)
  have hfl : 0 ≤ ⌊(cmax - c) / step⌋ := Int.floor_nonneg.mpr h0
  have hstepeq : ⌊(cmax - (c + step)) / step⌋ = ⌊(cmax - c) / step⌋ - 1 := by
    rw [show cmax - (c + step) = (cmax - c) - step by ring]
    rw [sub_div, div_self (ne_of_gt hstep)]
    rw [show ((1 : K) = ((1 : ℤ) : K)) by norm_num]
    exact Int.floor_sub_int _ 1
  rw [hstepeq]
  omega

/-- The contribution of one hatch line to the command list (slice.py lines 279-288
and 299-306): intersections of the line, guarded by `len >= 2`, sorted by
x-coordinate (the stable Python sort with key p[0]), then paired up. -/
def hatchLineCmds (polygon : List (Point K)) (A B c : K) : List (Cmd K) :=
  let inters := get_line_polygon_intersections polygon A B (-c) (1 / 1000000)
  if 2 ≤ inters.length then
    pairUp (inters.mergeSort fun p q => decide (p.1 ≤ q.1))
  else []

/-- slice.py lines 239-309: generate_cross_hatching_path.  The closing at
lines 261-263 rebinds the local name (`polygon = polygon + [...]`), it does
not mutate the argument.  Family 1: x + y = c (A=1, B=1, C=-c); family 2:
y - x = c (A=-1, B=1, C=-c); step = spacing * sqrt(2), with math.sqrt(2)
passed in as `sqrt2`. -/
def generate_cross_hatching_path [FloorRing K] (polygon : List (Point K))
    (spacing sqrt2 : K) : List (Cmd K) :=
  let polygon := closePoly polygon
  let step := spacing * sqrt2
  let c_values := polygon.map fun p => p.1 + p.2
  let cmds1 := (hatchCs (listMax c_values) step (listMin c_values)).flatMap
    fun c => hatchLineCmds polygon 1 1 c
  let c_values2 := polygon.map fun p => p.2 - p.1
  let cmds2 := (hatchCs (listMax c_values2) step (listMin c_values2)).flatMap
    fun c => hatchLineCmds polygon (-1) 1 c
  cmds1 ++ cmds2

/-- generate_cross_hatching_path in state-passing form: the function never
mutates its argument (the closing rebinds a local), so the post-state is the
argument itself. -/
def generate_cross_hatching_path_eff [FloorRing K] (polygon : List (Point K))
    (spacing sqrt2 : K) : List (Point K) × List (Cmd K) :=
  (polygon, generate_cross_hatching_path polygon spacing sqrt2)

/-- scale_polygon in state-passing form: a list comprehension builds a fresh
list; the argument is left unchanged. -/
def scale_polygon_eff (polygon : List (Point K)) (scale_factor : K) :
    List (Point K) × List (Point K) :=
  (polygon, scale_polygon polygon scale_factor)

/-- center_polygon in state-passing form: a list comprehension builds a fresh
list; the argument is left unchanged. -/
def center_polygon_eff (polygon : List (Point K)) (bed_width bed_height : K) :
    List (Point K) × List (Point K) :=
  (polygon, center_polygon polygon bed_width bed_height)

/-- A textual motion line of slice.py lines 311-324: either a travel move
`G1 X.. Y..` or an extrusion move `G1 X.. Y.. E..`.  The source computes
dist = sqrt((x-px)^2 + (y-py)^2) and prints E = dist / 10; we record the
radicand d2 = (x-px)^2 + (y-py)^2 in the line and recover the printed
E value as sqrt(d2) / 10 through `eAmount` below. -/
inductive GLine (K : Type) where
  | travel (x y : K)
  | extrude (x y : K) (d2 : K)
deriving DecidableEq

/-- The target coordinates a G-code line carries. -/
def glPos : GLine K → Point K
  | .travel x y => (x, y)
  | .extrude x y _ => (x, y)

/-- The coordinates stored in a command triple. -/
def cmdPos (c : Cmd K) : Point K := (c.1, c.2.1)

/-- slice.py lines 316-322: the loop of convert_to_gcode; `prev` is updated
to the current position after every command, travel or extrusion. -/
def gcodeLoop (prev : Point K) : List (Cmd K) → List (GLine K)
  | [] => []
  | (x, y, e) :: rest =>
    (if e = 0 then GLine.travel x y
     else GLine.extrude x y ((x - prev.1) ^ 2 + (y - prev.2) ^ 2)) ::
      gcodeLoop (x, y) rest

/-- slice.py lines 311-324: convert_to_gcode: the first command is emitted as
a plain travel move regardless of its stored mode, then the loop walks the
remaining commands.  (The source indexes coordinates[0] and so raises on an
empty list; the [] case below is unreachable in the claims.) -/
def convert_to_gcode : List (Cmd K) → List (GLine K)
  | [] => []
  | (x, y, _) :: rest => GLine.travel x y :: gcodeLoop (x, y) rest

/-- The deposition amount printed on a motion line: none for a travel move,
dist / 10 for an extrusion move (slice.py line 321: `E{dist / 10:.2f}`). -/
noncomputable def eAmount : GLine ℝ → Option ℝ
  | .travel _ _ => none
  | .extrude _ _ d2 => some (Real.sqrt d2 / 10)

/-- Euclidean distance between two points, as in slice.py line 317. -/
noncomputable def euclid (p q : Point ℝ) : ℝ :=
  Real.sqrt ((q.1 - p.1) ^ 2 + (q.2 - p.2) ^ 2)

/-- slice.py lines 10-11: the print bed dimensions. -/
def PRINT_BED_X : K := 200

/-- slice.py lines 10-11: the print bed dimensions. -/
def PRINT_BED_Y : K := 200

/-- The exception values raised by slice.py: Python ValueError and
FileNotFoundError carrying only a message string — there is no
NoGeometryFound error kind anywhere in the source. -/
inductive PyErr where
  | valueError (msg : String)
  | fileNotFoundError (msg : String)
deriving DecidableEq

/-- A decoded DXF entity as seen by the loop of read_dxf_polygon
(slice.py lines 115-138): a polyline with its closed flag (LWPOLYLINE /
POLYLINE — when open, its points are computed and then DISCARDED), a curve
flattened to a point sequence (LINE / SPLINE / CIRCLE / ARC / ELLIPSE,
appended to `lines`), or an entity of any other type (ignored). -/
inductive Entity (K : Type) where
  | polyline (closed : Bool) (pts : List (Point K))
  | curve (pts : List (Point K))
  | unsupported

/-- The entity loop and tail of read_dxf_polygon (slice.py lines 115-143):
the first closed polyline returns immediately; curves accumulate into
`lines`; at the end, a nonempty `lines` is stitched, otherwise a plain
ValueError is raised. -/
def readLoop (lines : List (Segment K)) :
    List (Entity K) → Except PyErr (List (Point K))
  | [] =>
    match lines with
    | [] => .error (.valueError "No valid polygon shapes found in DXF file.")
    | _ => .ok (combine_segments_to_polygon lines (1 / 1000000))
  | e :: rest =>
    match e with
    | .polyline true pts => .ok pts
    | .polyline false _ => readLoop lines rest
    | .curve pts => readLoop (lines ++ [pts]) rest
    | .unsupported => readLoop lines rest

/-- read_dxf_polygon restricted to its geometry core: the part after the
external ezdxf collaborator has decoded the entities. -/
def read_dxf_polygon_core (entities : List (Entity K)) :
    Except PyErr (List (Point K)) :=
  readLoop [] entities

/-- slice.py lines 457-462: the geometry pipeline of slice_dxf at K = ℝ:
center, then perimeter (mutating `shape` in place via the closing append),
then cross-hatching on the same — now closed — list, commands concatenated.
File handling, visualization and the final string join are external. -/
noncomputable def slice_core (polygon : List (Point ℝ)) (spacing : ℝ) :
    List (Cmd ℝ) :=
  let shape := center_polygon polygon PRINT_BED_X PRINT_BED_Y
  let pr := generate_perimeter_path_eff shape
  pr.2 ++ (generate_cross_hatching_path_eff pr.1 spacing (Real.sqrt 2)).2

/-- The ℝ-level cross-hatching generator of the source, with
step = spacing * math.sqrt(2). -/
noncomputable def generate_cross_hatching_pathR (polygon : List (Point ℝ))
    (spacing : ℝ) : List (Cmd ℝ) :=
  generate_cross_hatching_path polygon spacing (Real.sqrt 2)

/-- Even-length command lists that strictly alternate a move command followed
by a draw command, pairwise. -/
def isMDpairs : List (Cmd K) → Prop
  | [] => True
  | (_, _, m1) :: (_, _, m2) :: rest => m1 = 0 ∧ m2 = 1 ∧ isMDpairs rest
  | _ :: _ => False

/-- The 10x10 square of the scenario in the spec: vertices
(0,0), (10,0), (10,10), (0,10). -/
def square10 : List (Point ℝ) := [(0, 0), (10, 0), (10, 10), (0, 10)]

/-- z-component of the cross product (a - o) x (b - o): positive iff the
triple makes a strict left turn. -/
def crossZ (o a b : Point K) : K :=
  (a.1 - o.1) * (b.2 - o.2) - (a.2 - o.2) * (b.1 - o.1)

/-- A convex quadrilateral (all turns strictly left), given closed:
(0,0), (3,1), (2,3), (0,2), (0,0).  The hatch line x + y = 4 of the first
diagonal family passes through its vertex (3,1). -/
def quadConvex : List (Point ℚ) := [(0, 0), (3, 1), (2, 3), (0, 2), (0, 0)]

/- ------------------------------------------------------------------ -/
/- Helper lemmas shared by the claim theorems.                         -/
/- ------------------------------------------------------------------ -/

theorem head!_cons (a : Point K) (l : List (Point K)) : (a :: l).head! = a := rfl

theorem getLast!_concat (l : List (Point K)) (x : Point K) :
    (l ++ [x]).getLast! = x :=
  List.getLast!_of_getLast? (List.getLast?_concat l)

theorem closePoly_of_ne {l : List (Point K)} (h : l.head! ≠ l.getLast!) :
    closePoly l = l ++ [l.head!] := by
  unfold closePoly
  rw [if_pos h]

theorem closePoly_of_eq {l : List (Point K)} (h : l.head! = l.getLast!) :
    closePoly l = l := by
  unfold closePoly
  rw [if_neg (not_not_intro h)]

theorem closePoly_idem (l : List (Point K)) :
    closePoly (closePoly l) = closePoly l := by
  by_cases he : l.head! = l.getLast!
  · rw [closePoly_of_eq he, closePoly_of_eq he]
  · rw [closePoly_of_ne he]
    cases l with
    | nil => exact absurd rfl he
    | cons a as =>
      apply closePoly_of_eq
      rw [head!_cons] at he ⊢
      rw [show (a :: as) ++ [a] = a :: (as ++ [a]) by simp, head!_cons]
      rw [show a :: (as ++ [a]) = (a :: as) ++ [a] by simp, getLast!_concat]

/-- Auxiliary consequence of the exact closing used by the counterexample
analysis: the length of the command list that generate_perimeter_path
returns for a polygon whose first and last points are not identical. -/
theorem perimeter_length_open {l : List (Point K)} (h : l ≠ [])
    (hne : l.head! ≠ l.getLast!) :
    (generate_perimeter_path l).length = l.length + 1 := by
  cases l with
  | nil => exact absurd rfl h
  | cons a as =>
    unfold generate_perimeter_path generate_perimeter_path_eff
    rw [closePoly_of_ne hne]
    rw [show (a :: as) ++ [(a :: as).head!] = a :: (as ++ [(a :: as).head!]) by simp]
    simp

/- ------------------------------------------------------------------ -/
/- Claim theorems.                                                     -/
/- ------------------------------------------------------------------ -/

/-- C1: for a closed polygon given as a point list of n vertices (n >= 3)
with identical first and last points, generate_perimeter_path returns
exactly n commands: the first a MOVE (mode 0) to the first vertex, and the
remaining n-1 DRAW (mode 1) commands to the subsequent vertices in the
original list order, with no reordering, omission or duplication. -/
theorem C1_perimeter_completeness (polygon : List (Point ℝ))
    (h3 : 3 ≤ polygon.length) (hcl : polygon.head! = polygon.getLast!) :
    (generate_perimeter_path polygon).length = polygon.length ∧
    (generate_perimeter_path polygon)[0]? =
      some (polygon.head!.1, polygon.head!.2, 0) ∧
    ∀ i, 1 ≤ i → ∀ hi : i < polygon.length,
      (generate_perimeter_path polygon)[i]? =
        some (polygon[i].1, polygon[i].2, 1) := by
  obtain ⟨p, rest, rfl⟩ : ∃ p rest, polygon = p :: rest := by
    cases polygon with
    | nil => simp at h3
    | cons p rest => exact ⟨p, rest, rfl⟩
  have hout : generate_perimeter_path (p :: rest) =
      (p.1, p.2, 0) :: rest.map (fun q => (q.1, q.2, 1)) := by
    unfold generate_perimeter_path generate_perimeter_path_eff
    rw [closePoly_of_eq hcl]
    rfl
  refine ⟨?_, ?_, ?_⟩
  · rw [hout]; simp
  · rw [hout]; simp [head!_cons]
  · intro i h1 hi
    obtain ⟨j, rfl⟩ : ∃ j, i = j + 1 := ⟨i - 1, by omega⟩
    rw [hout, List.getElem?_cons_succ, List.getElem?_map]
    have hj : j < rest.length := by simpa using hi
    rw [List.getElem?_eq_getElem hj]
    simp

/-- Witness for C1 at the closed unit triangle. -/
theorem C1_witness :
    (generate_perimeter_path [((0 : ℝ), 0), (1, 0), (0, 1), (0, 0)]).length =
      ([((0 : ℝ), 0), (1, 0), (0, 1), (0, 0)] : List (Point ℝ)).length :=
  (C1_perimeter_completeness [((0 : ℝ), 0), (1, 0), (0, 1), (0, 0)]
    (by decide) rfl).1

/-- C2 counterexample (evaluated at K = ℚ, where the arithmetic of the
source on this input is exact): the polygon
[(0,0), (1,0), (0,1), (1e-7,0)] has first and last points that differ by
less than 1e-6 in each coordinate and are not identical; the claim says the
builders treat it as already closed and do not append an extra closing
point, i.e. that the perimeter path would have 4 commands — but the
exact `!=` comparison of the source appends the closing point, giving 5. -/
theorem C2_counterexample :
    |(0 : ℚ) - 1 / 10000000| < 1 / 1000000 ∧
    |(0 : ℚ) - 0| < 1 / 1000000 ∧
    ((0 : ℚ), (0 : ℚ)) ≠ ((1 / 10000000 : ℚ), (0 : ℚ)) ∧
    (generate_perimeter_path
        [((0 : ℚ), 0), (1, 0), (0, 1), (1 / 10000000, 0)]).length = 4 + 1 := by
  refine ⟨by norm_num [abs_lt], by norm_num, by norm_num [Prod.ext_iff], ?_⟩
  exact perimeter_length_open (by simp)
    (by norm_num [List.head!, List.getLast!, List.getLastD, Prod.ext_iff])

/-- C2 amended: tolerance-based point equality (epsilon 1e-6) is used in
segment stitching, but the closed-polygon checks of the Perimeter Path
Builder and of the Infill Generator compare the first and last points with
EXACT equality: whenever they are not identical — even if they differ by
less than 1e-6 — the perimeter builder appends an extra closing point to
the list of the caller (one extra DRAW command), and the infill generator works
on the polygon extended by that same closing point. -/
theorem C2_exact_equality_closing (polygon : List (Point ℝ))
    (h : polygon ≠ []) (hne : polygon.head! ≠ polygon.getLast!) :
    (∀ tol : ℝ, ∀ p q : Point ℝ,
      (points_equal tol p q ↔ |p.1 - q.1| < tol ∧ |p.2 - q.2| < tol)) ∧
    (generate_perimeter_path_eff polygon).1 = polygon ++ [polygon.head!] ∧
    (generate_perimeter_path polygon).length = polygon.length + 1 ∧
    ∀ spacing sqrt2 : ℝ,
      generate_cross_hatching_path polygon spacing sqrt2 =
        generate_cross_hatching_path (polygon ++ [polygon.head!]) spacing sqrt2 := by
  refine ⟨fun tol p q => Iff.rfl, ?_, perimeter_length_open h hne, ?_⟩
  · show closePoly polygon = polygon ++ [polygon.head!]
    exact closePoly_of_ne hne
  · intro spacing sqrt2
    unfold generate_cross_hatching_path
    rw [show polygon ++ [polygon.head!] = closePoly polygon from
      (closePoly_of_ne hne).symm]
    rw [closePoly_idem]

/-- Witness for the amended C2 theorem at an open triangle. -/
theorem C2_witness :
    (generate_perimeter_path [((0 : ℝ), 0), (1, 0), (0, 1)]).length =
      ([((0 : ℝ), 0), (1, 0), (0, 1)] : List (Point ℝ)).length + 1 :=
  (C2_exact_equality_closing [((0 : ℝ), 0), (1, 0), (0, 1)]
    (by simp)
    (by norm_num [List.head!, List.getLast!, List.getLastD, Prod.ext_iff])).2.2.1

/-- Every error the entity loop of read_dxf_polygon can produce is the one
generic ValueError raised at slice.py line 143. -/
theorem readLoop_error_msg :
    ∀ (entities : List (Entity K)) (lines : List (Segment K)) (err : PyErr),
      readLoop lines entities = .error err →
      err = .valueError "No valid polygon shapes found in DXF file." := by
  intro entities
  induction entities with
  | nil =>
    intro lines err h
    cases lines with
    | nil =>
      simp only [readLoop] at h
      cases h
      rfl
    | cons l ls => simp [readLoop] at h
  | cons e rest ih =>
    intro lines err h
    cases e with
    | polyline closed pts =>
      cases closed with
      | true => simp [readLoop] at h
      | false => exact ih lines err h
    | curve pts => exact ih (lines ++ [pts]) err h
    | unsupported => exact ih lines err h

/-- C3 counterexample: the Curve Normalizer (combine_segments_to_polygon)
called on an empty primitive list returns an empty point list — an empty
result, not a tagged failure of any kind. -/
theorem C3_counterexample :
    combine_segments_to_polygon ([] : List (Segment ℝ)) (1 / 1000000) = [] := rfl

/-- C3 amended: when no primitives are present the engine does NOT signal a
NoGeometryFound-tagged failure: combine_segments_to_polygon on an empty
list returns an empty list, and read_dxf_polygon, when the decoded entities
yield no stitchable lines and no closed polyline, raises a plain Python
ValueError carrying only the generic message
"No valid polygon shapes found in DXF file." — indeed every error the
read loop can produce is that one generic ValueError. -/
theorem C3_no_tagged_failure :
    read_dxf_polygon_core ([] : List (Entity ℝ)) =
      .error (.valueError "No valid polygon shapes found in DXF file.") ∧
    combine_segments_to_polygon ([] : List (Segment ℝ)) (1 / 1000000) = [] ∧
    ∀ (entities : List (Entity ℝ)) (err : PyErr),
      read_dxf_polygon_core entities = .error err →
      err = .valueError "No valid polygon shapes found in DXF file." :=
  ⟨rfl, rfl, fun entities err h => readLoop_error_msg entities [] err h⟩

theorem gcodeLoop_length (prev : Point K) (l : List (Cmd K)) :
    (gcodeLoop prev l).length = l.length := by
  induction l generalizing prev with
  | nil => rfl
  | cons c rest ih =>
    obtain ⟨x, y, e⟩ := c
    simp [gcodeLoop, ih]

theorem gcodeLoop_map_pos (prev : Point K) (l : List (Cmd K)) :
    (gcodeLoop prev l).map glPos = l.map cmdPos := by
  induction l generalizing prev with
  | nil => rfl
  | cons c rest ih =>
    obtain ⟨x, y, e⟩ := c
    simp only [gcodeLoop, List.map_cons, ih]
    by_cases he : e = 0
    · rw [if_pos he]; rfl
    · rw [if_neg he]; rfl

/-- C8 counterexample: for the single-command input [(0, 0, MOVE)] the
emitter outputs 1 line (the initial positional move), not n - 1 = 0. -/
theorem C8_counterexample :
    (convert_to_gcode [((0 : ℝ), 0, 0)]).length ≠
      ([((0 : ℝ), 0, 0)] : List (Cmd ℝ)).length - 1 := by
  simp [convert_to_gcode, gcodeLoop]

/-- C8 amended: for an input of n commands, convert_to_gcode outputs n
textual motion lines — one initial positional move for the first command
plus one line per subsequent command — in the same order as the commands
(line k targets the coordinates of command k). -/
theorem C8_line_count (cmds : List (Cmd ℝ)) :
    (convert_to_gcode cmds).length = cmds.length ∧
    (convert_to_gcode cmds).map glPos = cmds.map cmdPos := by
  cases cmds with
  | nil => exact ⟨rfl, rfl⟩
  | cons c rest =>
    obtain ⟨x, y, e⟩ := c
    constructor
    · simp [convert_to_gcode, gcodeLoop_length]
    · simp only [convert_to_gcode, List.map_cons, gcodeLoop_map_pos]
      rfl

/-- C10: mutation effects of the pipeline stages.  The perimeter builder
mutates its argument in place: when the polygon is open the list of the caller
gains the closing point, so the cross-hatching call that follows it in
slice_dxf observes the closed polygon; the cross-hatching generator,
scale_polygon and center_polygon leave their argument unchanged. -/
theorem C10_mutation_effects (polygon : List (Point ℝ)) (spacing : ℝ)
    (h : polygon ≠ []) (hop : polygon.head! ≠ polygon.getLast!) :
    (generate_perimeter_path_eff polygon).1 = polygon ++ [polygon.head!] ∧
    (generate_perimeter_path_eff polygon).1 ≠ polygon ∧
    (∀ (q : List (Point ℝ)) (s r : ℝ),
      (generate_cross_hatching_path_eff q s r).1 = q) ∧
    (∀ (q : List (Point ℝ)) (f : ℝ), (scale_polygon_eff q f).1 = q) ∧
    (∀ (q : List (Point ℝ)) (w b : ℝ), (center_polygon_eff q w b).1 = q) ∧
    slice_core polygon spacing =
      generate_perimeter_path (center_polygon polygon PRINT_BED_X PRINT_BED_Y) ++
        generate_cross_hatching_path
          (generate_perimeter_path_eff
            (center_polygon polygon PRINT_BED_X PRINT_BED_Y)).1
          spacing (Real.sqrt 2) := by
  refine ⟨closePoly_of_ne hop, ?_, fun q s r => rfl, fun q f => rfl,
    fun q w b => rfl, rfl⟩
  show closePoly polygon ≠ polygon
  rw [closePoly_of_ne hop]
  intro heq
  have := congrArg List.length heq
  simp at this

/-- Witness for C10 at an open triangle. -/
theorem C10_witness :
    (generate_perimeter_path_eff [((0 : ℝ), 0), (1, 0), (0, 1)]).1 =
      [((0 : ℝ), 0), (1, 0), (0, 1)] ++
        [([((0 : ℝ), 0), (1, 0), (0, 1)] : List (Point ℝ)).head!] :=
  (C10_mutation_effects [((0 : ℝ), 0), (1, 0), (0, 1)] 10 (by simp)
    (by norm_num [List.head!, List.getLast!, List.getLastD, Prod.ext_iff])).1

theorem foldl_min_map_add (c : K) (l : List K) :
    ∀ a : K, List.foldl min (a + c) (l.map fun x => x + c) =
      List.foldl min a l + c := by
  induction l with
  | nil => intro a; simp
  | cons x xs ih =>
    intro a
    simp only [List.map_cons, List.foldl_cons]
    rw [min_add_add_right, ih]

theorem foldl_max_map_add (c : K) (l : List K) :
    ∀ a : K, List.foldl max (a + c) (l.map fun x => x + c) =
      List.foldl max a l + c := by
  induction l with
  | nil => intro a; simp
  | cons x xs ih =>
    intro a
    simp only [List.map_cons, List.foldl_cons]
    rw [max_add_add_right, ih]

theorem listMin_map_add (l : List K) (c : K) (h : l ≠ []) :
    listMin (l.map fun x => x + c) = listMin l + c := by
  cases l with
  | nil => exact absurd rfl h
  | cons x xs =>
    simp only [List.map_cons, listMin]
    exact foldl_min_map_add c xs x

theorem listMax_map_add (l : List K) (c : K) (h : l ≠ []) :
    listMax (l.map fun x => x + c) = listMax l + c := by
  cases l with
  | nil => exact absurd rfl h
  | cons x xs =>
    simp only [List.map_cons, listMax]
    exact foldl_max_map_add c xs x

/-- center_polygon with its let-bindings inlined. -/
theorem center_polygon_def (P : List (Point K)) (w b : K) :
    center_polygon P w b = P.map (fun p =>
      (p.1 + (w / 2 -
        (listMin (P.map fun q => q.1) + listMax (P.map fun q => q.1)) / 2),
       p.2 + (b / 2 -
        (listMin (P.map fun q => q.2) + listMax (P.map fun q => q.2)) / 2))) :=
  rfl

/-- C4: centering is idempotent: for every non-empty polygon P and working
area of width w and height b, centering twice returns exactly the same
point list as centering once (in the idealised real arithmetic the no-op
is exact, hence in particular within floating-point tolerance). -/
theorem C4_idempotent_centering (P : List (Point ℝ)) (w b : ℝ) (h : P ≠ []) :
    center_polygon (center_polygon P w b) w b = center_polygon P w b := by
  have h1 : P.map (fun q : Point ℝ => q.1) ≠ [] := by simpa using h
  have h2 : P.map (fun q : Point ℝ => q.2) ≠ [] := by simpa using h
  have hx : (center_polygon P w b).map (fun q : Point ℝ => q.1) =
      (P.map fun q : Point ℝ => q.1).map
        (fun x => x + (w / 2 - (listMin (P.map fun q : Point ℝ => q.1) +
          listMax (P.map fun q : Point ℝ => q.1)) / 2)) := by
    rw [center_polygon_def, List.map_map, List.map_map]
    rfl
  have hy : (center_polygon P w b).map (fun q : Point ℝ => q.2) =
      (P.map fun q : Point ℝ => q.2).map
        (fun x => x + (b / 2 - (listMin (P.map fun q : Point ℝ => q.2) +
          listMax (P.map fun q : Point ℝ => q.2)) / 2)) := by
    rw [center_polygon_def, List.map_map, List.map_map]
    rfl
  rw [center_polygon_def (center_polygon P w b) w b]
  rw [hx, hy]
  rw [listMin_map_add _ _ h1, listMax_map_add _ _ h1,
      listMin_map_add _ _ h2, listMax_map_add _ _ h2]
  conv_rhs => rw [← List.map_id (center_polygon P w b)]
  apply List.map_congr_left
  intro p hp
  obtain ⟨p1, p2⟩ := p
  simp only [id]
  rw [Prod.mk.injEq]
  constructor <;> ring

/-- Witness for C4 at a concrete two-point polygon. -/
theorem C4_witness :
    center_polygon (center_polygon [((0 : ℝ), 0), (2, 2)] 10 10) 10 10 =
      center_polygon [((0 : ℝ), 0), (2, 2)] 10 10 :=
  C4_idempotent_centering [((0 : ℝ), 0), (2, 2)] 10 10 (by simp)

theorem isMDpairs_nil : isMDpairs ([] : List (Cmd K)) := trivial

theorem isMDpairs_pairUp (l : List (Point K)) : isMDpairs (pairUp l) := by
  induction l using pairUp.induct with
  | case1 p q rest ih => exact ⟨rfl, rfl, ih⟩
  | case2 l hl =>
    cases l with
    | nil => exact trivial
    | cons p rest =>
      cases rest with
      | nil => exact trivial
      | cons q rest2 => exact absurd rfl (hl p q rest2)

theorem isMDpairs_append {b : List (Cmd K)} (hb : isMDpairs b) :
    ∀ a : List (Cmd K), isMDpairs a → isMDpairs (a ++ b) := by
  intro a
  induction a using isMDpairs.induct with
  | case1 => intro _; simpa using hb
  | case2 x1 y1 m1 x2 y2 m2 rest ih =>
    intro ha
    obtain ⟨h1, h2, h3⟩ := ha
    exact ⟨h1, h2, ih h3⟩
  | case3 head tail h =>
    intro ha
    cases tail with
    | nil => exact ha.elim
    | cons d ds =>
      obtain ⟨hx, hy, hm⟩ := head
      obtain ⟨dx, dy, dm⟩ := d
      exact (h hx hy hm dx dy dm ds rfl rfl).elim

theorem isMDpairs_flatMap {α : Type} (l : List α) (f : α → List (Cmd K))
    (hf : ∀ x, isMDpairs (f x)) : isMDpairs (l.flatMap f) := by
  induction l with
  | nil => exact trivial
  | cons x xs ih =>
    rw [List.flatMap_cons]
    exact isMDpairs_append ih (f x) (hf x)

theorem isMDpairs_hatchLineCmds (polygon : List (Point K)) (A B c : K) :
    isMDpairs (hatchLineCmds polygon A B c) := by
  simp only [hatchLineCmds]
  split
  · exact isMDpairs_pairUp _
  · exact trivial

theorem isMDpairs_spec :
    ∀ l : List (Cmd K), isMDpairs l →
      Even l.length ∧ ∀ i, ∀ hi : i < l.length,
        l[i].2.2 = if i % 2 = 0 then 0 else 1 := by
  intro l
  induction l using isMDpairs.induct with
  | case1 => intro _; exact ⟨even_zero, fun i hi => absurd hi (by simp)⟩
  | case2 x1 y1 m1 x2 y2 m2 rest ih =>
    intro h
    obtain ⟨h1, h2, h3⟩ := h
    obtain ⟨he, hg⟩ := ih h3
    constructor
    · simpa [Nat.add_assoc] using he.add ⟨1, rfl⟩
    · intro i hi
      match i with
      | 0 => simpa using h1
      | 1 => simpa using h2
      | j + 2 =>
        have hj : j < rest.length := by
          simp only [List.length_cons] at hi
          omega
        have := hg j hj
        simpa [Nat.add_mod_right] using this
  | case3 head tail h =>
    intro ha
    cases tail with
    | nil => exact ha.elim
    | cons d ds =>
      obtain ⟨hx, hy, hm⟩ := head
      obtain ⟨dx, dy, dm⟩ := d
      exact (h hx hy hm dx dy dm ds rfl rfl).elim

/-- C5 counterexample (evaluated at K = ℚ, where the source arithmetic on
this input is exact): quadConvex is a closed strictly convex quadrilateral
(all four turns are strict left turns), yet the diagonal-family hatch line
x + y = 4 (A = 1, B = 1, C = -4) passes through its vertex (3,1) and
get_line_polygon_intersections returns 3 boundary intersections — an odd
count, neither 0 nor 2. -/
theorem C5_counterexample :
    0 < crossZ ((0 : ℚ), 0) (3, 1) (2, 3) ∧
    0 < crossZ ((3 : ℚ), 1) (2, 3) (0, 2) ∧
    0 < crossZ ((2 : ℚ), 3) (0, 2) (0, 0) ∧
    0 < crossZ ((0 : ℚ), 2) (0, 0) (3, 1) ∧
    quadConvex.head! = quadConvex.getLast! ∧
    (get_line_polygon_intersections quadConvex 1 1 (-4) (1 / 1000000)).length
      = 3 := by
  refine ⟨by norm_num [crossZ], by norm_num [crossZ], by norm_num [crossZ],
    by norm_num [crossZ], rfl, ?_⟩
  norm_num [get_line_polygon_intersections, quadConvex, List.getD,
    List.range_succ, List.filterMap_append, List.filterMap_cons]

/-- C5 amended: a cross-hatch line may meet the boundary in an odd number
of intersections even for a convex closed polygon (when it passes through a
vertex, the vertex is reported once per incident non-parallel edge); the
Infill Generator nevertheless never emits an unpaired trailing intersection:
for every input polygon its output command list has even length and strictly
alternates MOVE followed by DRAW. -/
theorem C5_pairing_parity (polygon : List (Point ℝ)) (spacing : ℝ)
    (h : polygon ≠ []) :
    Even (generate_cross_hatching_pathR polygon spacing).length ∧
    ∀ i, ∀ hi : i < (generate_cross_hatching_pathR polygon spacing).length,
      (generate_cross_hatching_pathR polygon spacing)[i].2.2 =
        if i % 2 = 0 then 0 else 1 := by
  apply isMDpairs_spec
  unfold generate_cross_hatching_pathR generate_cross_hatching_path
  apply isMDpairs_append
  · exact isMDpairs_flatMap _ _ fun c => isMDpairs_hatchLineCmds _ _ _ _
  · exact isMDpairs_flatMap _ _ fun c => isMDpairs_hatchLineCmds _ _ _ _

/-- Witness for C5 at the unit triangle with the default spacing. -/
theorem C5_witness :
    Even (generate_cross_hatching_pathR [((0 : ℝ), 0), (1, 0), (0, 1)] 10).length :=
  (C5_pairing_parity [((0 : ℝ), 0), (1, 0), (0, 1)] 10 (by simp)).1

theorem gcodeLoop_getElem_zero (prev : Point K) (l : List (Cmd K)) (x y e : K)
    (h : l[0]? = some (x, y, e)) :
    (gcodeLoop prev l)[0]? = some (if e = 0 then GLine.travel x y
      else GLine.extrude x y ((x - prev.1) ^ 2 + (y - prev.2) ^ 2)) := by
  cases l with
  | nil => simp at h
  | cons c rest =>
    obtain ⟨cx, cy, ce⟩ := c
    simp only [List.getElem?_cons_zero, Option.some.injEq] at h
    cases h
    simp only [gcodeLoop, List.getElem?_cons_zero]

theorem gcodeLoop_getElem_succ (l : List (Cmd K)) :
    ∀ (prev : Point K) (i : ℕ) (x y e px py pe : K),
      l[i]? = some (px, py, pe) → l[i + 1]? = some (x, y, e) →
      (gcodeLoop prev l)[i + 1]? = some (if e = 0 then GLine.travel x y
        else GLine.extrude x y ((x - px) ^ 2 + (y - py) ^ 2)) := by
  induction l with
  | nil => intro prev i x y e px py pe h1 h2; simp at h1
  | cons c rest ih =>
    intro prev i x y e px py pe h1 h2
    obtain ⟨cx, cy, ce⟩ := c
    cases i with
    | zero =>
      simp only [List.getElem?_cons_zero, Option.some.injEq] at h1
      cases h1
      rw [List.getElem?_cons_succ] at h2
      simp only [gcodeLoop]
      rw [List.getElem?_cons_succ]
      exact gcodeLoop_getElem_zero (px, py) rest x y e h2
    | succ j =>
      rw [List.getElem?_cons_succ] at h1 h2
      simp only [gcodeLoop]
      rw [List.getElem?_cons_succ]
      exact ih (cx, cy) j x y e px py pe h1 h2

/-- C6: for every command list and every DRAW command (mode 1) after the
first command, the deposition amount carried by the emitted motion line is
exactly the Euclidean distance from the previous command position to the
DRAW command position, divided by 10. -/
theorem C6_distance_extrusion (cmds : List (Cmd ℝ)) (i : ℕ) (x y px py pe : ℝ)
    (h1 : cmds[i]? = some (px, py, pe)) (h2 : cmds[i + 1]? = some (x, y, 1)) :
    (convert_to_gcode cmds)[i + 1]? =
      some (GLine.extrude x y ((x - px) ^ 2 + (y - py) ^ 2)) ∧
    ((convert_to_gcode cmds)[i + 1]?).bind eAmount =
      some (euclid (px, py) (x, y) / 10) := by
  have key : (convert_to_gcode cmds)[i + 1]? =
      some (GLine.extrude x y ((x - px) ^ 2 + (y - py) ^ 2)) := by
    cases cmds with
    | nil => simp at h1
    | cons c rest =>
      obtain ⟨cx, cy, ce⟩ := c
      simp only [convert_to_gcode]
      rw [List.getElem?_cons_succ]
      cases i with
      | zero =>
        simp only [List.getElem?_cons_zero, Option.some.injEq] at h1
        cases h1
        rw [List.getElem?_cons_succ] at h2
        have hz := gcodeLoop_getElem_zero (px, py) rest x y 1 h2
        rw [if_neg one_ne_zero] at hz
        exact hz
      | succ j =>
        rw [List.getElem?_cons_succ] at h1 h2
        have hs := gcodeLoop_getElem_succ rest (cx, cy) j x y 1 px py pe h1 h2
        rw [if_neg one_ne_zero] at hs
        exact hs
  refine ⟨key, ?_⟩
  rw [key]
  rfl

/-- Witness for C6 at the two-command list [(0,0,MOVE), (3,4,DRAW)]. -/
theorem C6_witness :
    (convert_to_gcode [((0 : ℝ), 0, 0), (3, 4, 1)])[0 + 1]? =
      some (GLine.extrude 3 4 ((3 - 0) ^ 2 + (4 - 0) ^ 2)) :=
  (C6_distance_extrusion [((0 : ℝ), 0, 0), (3, 4, 1)] 0 3 4 0 0 0 rfl rfl).1

theorem closePoly_head! (l : List (Point K)) (h : l ≠ []) :
    (closePoly l).head! = l.head! := by
  by_cases he : l.head! = l.getLast!
  · rw [closePoly_of_eq he]
  · rw [closePoly_of_ne he]
    cases l with
    | nil => exact absurd rfl h
    | cons a as =>
      rw [show (a :: as) ++ [(a :: as).head!] =
        a :: (as ++ [(a :: as).head!]) by simp]
      rw [head!_cons, head!_cons]

/-- The placement step of the spec scenario: the 10x10 square centered on the
200x200 bed lands on [(95,95), (105,95), (105,105), (95,105)]. -/
theorem center_square10 :
    center_polygon square10 200 200 =
      [(95, 95), (105, 95), (105, 105), (95, 105)] := by
  norm_num [center_polygon, square10, listMin, listMax, min_def, max_def]

/-- C7: for every non-empty command list the first line the Command Emitter
outputs is a pure positional move (no deposition value) at the first
coordinates of the first command, regardless of its stored mode; and in the
10x10-square scenario (working area 200x200) that first line targets
(95, 95) — whatever infill commands follow the perimeter. -/
theorem C7_first_line_positional :
    (∀ (x y e : ℝ) (rest : List (Cmd ℝ)),
      (convert_to_gcode ((x, y, e) :: rest))[0]? = some (GLine.travel x y)) ∧
    ∀ infill : List (Cmd ℝ),
      (convert_to_gcode
        (generate_perimeter_path (center_polygon square10 200 200) ++
          infill))[0]? = some (GLine.travel 95 95) := by
  constructor
  · intro x y e rest
    simp only [convert_to_gcode, List.getElem?_cons_zero]
  · intro infill
    rw [center_square10]
    have h1 : generate_perimeter_path
        [((95 : ℝ), 95), (105, 95), (105, 105), (95, 105)] =
        (95, 95, 0) ::
          ((closePoly [((95 : ℝ), 95), (105, 95), (105, 105), (95, 105)]).tail.map
            fun p => (p.1, p.2, 1)) := by
      simp only [generate_perimeter_path, generate_perimeter_path_eff]
      rw [closePoly_head! _ (by simp)]
      rfl
    rw [h1, List.cons_append]
    simp only [convert_to_gcode, List.getElem?_cons_zero]

theorem scanSegs_first_match (tol : K) (polygon : List (Point K)) :
    ∀ (segs : List (Segment K)) (i : ℕ) (segI : Segment K)
      (p : List (Point K)),
      (∀ j seg, j < i → segs[j]? = some seg →
        connectTest tol polygon seg = none) →
      segs[i]? = some segI → connectTest tol polygon segI = some p →
      scanSegs tol polygon segs = some (p, segs.eraseIdx i) := by
  intro segs
  induction segs with
  | nil => intro i segI p hnone hsome hconn; simp at hsome
  | cons s rest ih =>
    intro i segI p hnone hsome hconn
    cases i with
    | zero =>
      simp only [List.getElem?_cons_zero, Option.some.injEq] at hsome
      subst hsome
      simp only [scanSegs, hconn, List.eraseIdx]
    | succ j =>
      have hs0 : connectTest tol polygon s = none :=
        hnone 0 s (by omega) (by simp)
      rw [List.getElem?_cons_succ] at hsome
      have hrec := ih j segI p
        (fun k seg hk hsk => hnone (k + 1) seg (by omega)
          (by rw [List.getElem?_cons_succ]; exact hsk))
        hsome hconn
      simp only [scanSegs, hs0, hrec, List.eraseIdx]

theorem stitchLoop_step (tol : K) (polygon p : List (Point K))
    (segs rest : List (Segment K))
    (h : scanSegs tol polygon segs = some (p, rest)) :
    stitchLoop tol polygon segs = stitchLoop tol p rest := by
  rw [stitchLoop]
  split
  · rename_i pr heq
    rw [heq] at h
    cases h
    rfl
  · rename_i heq
    rw [heq] at h
    cases h

/-- C9: in segment stitching the four connection tests of a candidate
segment are tried in the fixed order start-to-tail, end-to-tail,
start-to-head, end-to-head and the first test that succeeds determines the
splice; during one scan pass the first candidate segment (in list order)
with a successful test wins, exactly that one segment is removed from the
remaining set, and the loop restarts from the spliced polygon. -/
theorem C9_stitch_tie_break (tol : ℝ) (polygon : List (Point ℝ))
    (segs : List (Segment ℝ)) (i : ℕ) (segI : Segment ℝ) (p : List (Point ℝ))
    (hnone : ∀ j seg, j < i → segs[j]? = some seg →
      connectTest tol polygon seg = none)
    (hsome : segs[i]? = some segI)
    (hconn : connectTest tol polygon segI = some p) :
    scanSegs tol polygon segs = some (p, segs.eraseIdx i) ∧
    stitchLoop tol polygon segs = stitchLoop tol p (segs.eraseIdx i) ∧
    (∀ seg : Segment ℝ, points_equal tol polygon.getLast! seg.head! →
      connectTest tol polygon seg = some (polygon ++ seg.tail)) ∧
    (∀ seg : Segment ℝ, ¬ points_equal tol polygon.getLast! seg.head! →
      points_equal tol polygon.getLast! seg.getLast! →
      connectTest tol polygon seg = some (polygon ++ seg.dropLast.reverse)) ∧
    (∀ seg : Segment ℝ, ¬ points_equal tol polygon.getLast! seg.head! →
      ¬ points_equal tol polygon.getLast! seg.getLast! →
      points_equal tol polygon.head! seg.head! →
      connectTest tol polygon seg = some (seg.reverse ++ polygon.tail)) ∧
    (∀ seg : Segment ℝ, ¬ points_equal tol polygon.getLast! seg.head! →
      ¬ points_equal tol polygon.getLast! seg.getLast! →
      ¬ points_equal tol polygon.head! seg.head! →
      points_equal tol polygon.head! seg.getLast! →
      connectTest tol polygon seg = some (seg.dropLast ++ polygon)) := by
  have hscan := scanSegs_first_match tol polygon segs i segI p hnone hsome hconn
  refine ⟨hscan, stitchLoop_step tol polygon p segs _ hscan, ?_, ?_, ?_, ?_⟩
  · intro seg h1
    unfold connectTest
    rw [if_pos h1]
  · intro seg h1 h2
    unfold connectTest
    rw [if_neg h1, if_pos h2]
  · intro seg h1 h2 h3
    unfold connectTest
    rw [if_neg h1, if_neg h2, if_pos h3]
  · intro seg h1 h2 h3 h4
    unfold connectTest
    rw [if_neg h1, if_neg h2, if_neg h3, if_pos h4]

/-- Witness for C9: the first candidate segment does not connect, the
second connects tail-to-start and is the one spliced and removed. -/
theorem C9_witness :
    scanSegs (1 / 1000000 : ℝ) [(0, 0), (1, 0)]
        [[(5, 5), (6, 6)], [(1, 0), (2, 0)]] =
      some ([(0, 0), (1, 0), (2, 0)], [[(5, 5), (6, 6)]]) :=
  (C9_stitch_tie_break (1 / 1000000) [(0, 0), (1, 0)]
    [[(5, 5), (6, 6)], [(1, 0), (2, 0)]] 1 [(1, 0), (2, 0)]
    [(0, 0), (1, 0), (2, 0)]
    (by
      intro j seg hj hsk
      have hj0 : j = 0 := by omega
      subst hj0
      simp only [List.getElem?_cons_zero, Option.some.injEq] at hsk
      subst hsk
      norm_num [connectTest, points_equal, List.head!, List.getLast!,
        List.getLastD])
    rfl
    (by
      norm_num [connectTest, points_equal, List.head!, List.getLast!,
        List.getLastD])).1

end FabricAtor
